import Mathlib

/-!
Shallow embedding of the graphaura client-side graph state core:
the zustand store in src/frontend/stores/graphStore.ts, the derived
filtered view in src/frontend/components/Graph3D.tsx, the gateway
ingestion in the api module (graphApi.getGraph), and the load routine
in src/frontend/app/page.tsx.

Lists model JS arrays (order-preserving); JS Set objects are modelled
as insertion-ordered duplicate-free string lists built by setAdd.
-/

namespace Graphaura

/-- Closed node-type enumeration from the frontend types module. -/
inductive NodeType where
  | person
  | event
  | location
  deriving DecidableEq, Repr

/-- Metadata attached by the gateway to ingested nodes. -/
structure NodeMeta where
  description : String
  category : String
  deriving DecidableEq, Repr

/-- Graph node: id, display name, type, optional visual weight, optional
color, optional metadata. Transient layout fields (x, y, z) are owned by
the renderer and never read by the store logic, so they are omitted. -/
structure GraphNode where
  id : String
  name : String
  type : NodeType
  val : Option Nat := none
  color : Option String := none
  metadata : Option NodeMeta := none
  deriving DecidableEq, Repr

/-- A link endpoint is either an id string or a resolved node reference
(the renderer may rewrite endpoints in place). -/
inductive LinkEnd where
  | idStr (s : String)
  | ref (n : GraphNode)
  deriving DecidableEq, Repr

/-- Endpoint normalization: the string itself if the field is a string,
otherwise the referenced node id. -/
def LinkEnd.norm : LinkEnd → String
  | .idStr s => s
  | .ref n => n.id

/-- Directed graph link with relationship label, optional strength and
optional color override. -/
structure GraphLink where
  source : LinkEnd
  target : LinkEnd
  relationship : String
  strength : Option Nat := none
  color : Option String := none
  deriving DecidableEq, Repr

/-- Graph snapshot: node sequence plus link sequence. -/
structure GraphData where
  nodes : List GraphNode
  links : List GraphLink
  deriving DecidableEq, Repr

/-- The full zustand store state (graphStore.ts). -/
structure GraphState where
  graphData : GraphData
  selectedNode : Option GraphNode
  hoveredNode : Option GraphNode
  highlightedNodes : List String
  highlightedLinks : List String
  filterByType : Option NodeType
  searchQuery : String
  isLoading : Bool
  error : Option String
  deriving DecidableEq, Repr

/-- Initial store state. -/
def initialState : GraphState :=
  { graphData := { nodes := [], links := [] }
    selectedNode := none
    hoveredNode := none
    highlightedNodes := []
    highlightedLinks := []
    filterByType := none
    searchQuery := ""
    isLoading := false
    error := none }

/-- setGraphData: wholesale replacement of the snapshot. -/
def setGraphData (data : GraphData) (st : GraphState) : GraphState :=
  { st with graphData := data }

/-- addNode: append to the node sequence. -/
def addNode (node : GraphNode) (st : GraphState) : GraphState :=
  { st with graphData :=
      { st.graphData with nodes := st.graphData.nodes ++ [node] } }

/-- removeNode: drop nodes with the given id and every link either of
whose normalized endpoints equals the given id. -/
def removeNode (nodeId : String) (st : GraphState) : GraphState :=
  { st with graphData :=
      { nodes := st.graphData.nodes.filter (fun n => n.id != nodeId)
        links := st.graphData.links.filter (fun l =>
          l.source.norm != nodeId && l.target.norm != nodeId) } }

/-- Partial node update (TS Partial of GraphNode): some means the field
is present in the update object. -/
structure NodeUpdates where
  id : Option String := none
  name : Option String := none
  type : Option NodeType := none
  val : Option Nat := none
  color : Option String := none
  metadata : Option NodeMeta := none
  deriving DecidableEq, Repr

/-- JS object spread of the update over the node. -/
def applyUpdates (u : NodeUpdates) (n : GraphNode) : GraphNode :=
  { id := u.id.getD n.id
    name := u.name.getD n.name
    type := u.type.getD n.type
    val := match u.val with | some v => some v | none => n.val
    color := match u.color with | some c => some c | none => n.color
    metadata := match u.metadata with | some m => some m | none => n.metadata }

/-- updateNode: merge the update into every node whose id matches. -/
def updateNode (nodeId : String) (u : NodeUpdates) (st : GraphState) : GraphState :=
  { st with graphData :=
      { st.graphData with nodes := st.graphData.nodes.map (fun n =>
          if n.id == nodeId then applyUpdates u n else n) } }

/-- addLink: append to the link sequence. -/
def addLink (link : GraphLink) (st : GraphState) : GraphState :=
  { st with graphData :=
      { st.graphData with links := st.graphData.links ++ [link] } }

/-- removeLink: drop links whose normalized ordered endpoint pair equals
the given pair. -/
def removeLink (sourceId targetId : String) (st : GraphState) : GraphState :=
  { st with graphData :=
      { st.graphData with links := st.graphData.links.filter (fun l =>
          !(l.source.norm == sourceId && l.target.norm == targetId)) } }

/-- setSelectedNode. -/
def setSelectedNode (node : Option GraphNode) (st : GraphState) : GraphState :=
  { st with selectedNode := node }

/-- setHoveredNode. -/
def setHoveredNode (node : Option GraphNode) (st : GraphState) : GraphState :=
  { st with hoveredNode := node }

/-- setFilterByType. -/
def setFilterByType (t : Option NodeType) (st : GraphState) : GraphState :=
  { st with filterByType := t }

/-- setSearchQuery. -/
def setSearchQuery (q : String) (st : GraphState) : GraphState :=
  { st with searchQuery := q }

/-- setLoading. -/
def setLoading (b : Bool) (st : GraphState) : GraphState :=
  { st with isLoading := b }

/-- setError. -/
def setError (e : Option String) (st : GraphState) : GraphState :=
  { st with error := e }

/-- clearGraph: reset the snapshot and the selection, nothing else. -/
def clearGraph (st : GraphState) : GraphState :=
  { st with graphData := { nodes := [], links := [] }, selectedNode := none }

/-- JS Set.add on an insertion-ordered string list. -/
def setAdd (xs : List String) (x : String) : List String :=
  if x ∈ xs then xs else xs ++ [x]

/-- Link identity string sourceId-targetId. -/
def linkId (s t : String) : String := s ++ "-" ++ t

/-- Result of getNeighbors: a node-id set and a link-identity set. -/
structure Neighbors where
  nodes : List String
  links : List String
  deriving DecidableEq, Repr

/-- One iteration of the getNeighbors forEach loop. -/
def neighborStep (nodeId : String) (acc : Neighbors) (link : GraphLink) : Neighbors :=
  let sourceId := link.source.norm
  let targetId := link.target.norm
  if sourceId == nodeId then
    { nodes := setAdd acc.nodes targetId
      links := setAdd acc.links (linkId sourceId targetId) }
  else if targetId == nodeId then
    { nodes := setAdd acc.nodes sourceId
      links := setAdd acc.links (linkId sourceId targetId) }
  else acc

/-- getNeighbors: scan every link once, collecting neighbor ids and link
identity strings. -/
def getNeighbors (nodeId : String) (st : GraphState) : Neighbors :=
  st.graphData.links.foldl (neighborStep nodeId) { nodes := [], links := [] }

/-- Whether pat is a leading segment of hay (character lists). -/
def leadMatch : List Char → List Char → Bool
  | [], _ => true
  | _ :: _, [] => false
  | p :: ps, h :: hs => p == h && leadMatch ps hs

/-- Whether pat occurs contiguously inside hay (character lists). -/
def hasSub (pat : List Char) : List Char → Bool
  | [] => leadMatch pat []
  | h :: hs => leadMatch pat (h :: hs) || hasSub pat hs

/-- JS String.includes: substring containment. -/
def strIncludes (hay pat : String) : Bool := hasSub pat.data hay.data

/-- JS String.toLowerCase: lowercase every character (list-based so that
it reduces definitionally; equivalent to String.map Char.toLower). -/
def strToLower (s : String) : String := { data := s.data.map Char.toLower }

/-- Derived filtered view (Graph3D.tsx): type filter first, then search
filter, each pruning links against the node set surviving so far. An
unset type filter and an empty query (JS falsy) skip their stage. -/
def filteredData (graphData : GraphData) (filterByType : Option NodeType)
    (searchQuery : String) : GraphData :=
  let nodes := graphData.nodes
  let links := graphData.links
  let step1 :=
    match filterByType with
    | some t =>
      let nodes2 := nodes.filter (fun node => node.type == t)
      let nodeIds := nodes2.map (fun n => n.id)
      let links2 := links.filter (fun link =>
        nodeIds.contains link.source.norm && nodeIds.contains link.target.norm)
      (nodes2, links2)
    | none => (nodes, links)
  let step2 :=
    if searchQuery.isEmpty then step1
    else
      let nodes2 := step1.1.filter (fun node =>
        strIncludes (strToLower node.name) (strToLower searchQuery))
      let nodeIds := nodes2.map (fun n => n.id)
      let links2 := step1.2.filter (fun link =>
        nodeIds.contains link.source.norm && nodeIds.contains link.target.norm)
      (nodes2, links2)
  { nodes := step2.1, links := step2.2 }

/-- NODE_COLORS, the fixed type-to-color lookup table exported by the
frontend types module. -/
def nodeColors : NodeType → String
  | .person => "#3B82F6"
  | .event => "#10B981"
  | .location => "#EF4444"

/-- A node record returned by the graph database query. -/
structure RawNode where
  name : String
  category : String
  description : String
  deriving DecidableEq, Repr

/-- A relationship record returned by the graph database query. -/
structure RawRel where
  relType : Option String
  deriving DecidableEq, Repr

/-- One row of the cypher query result: optional n, r, m fields. -/
structure RawRecord where
  n : Option RawNode
  r : Option RawRel
  m : Option RawNode
  deriving DecidableEq, Repr

/-- Category-to-type mapping used by graphApi.getGraph. -/
def categoryToType (category : String) : NodeType :=
  if category == "Event" then .event
  else if category == "Date" then .event
  else if category == "Location" then .location
  else if category == "Person" then .person
  else .event

/-- Node built by the gateway from a raw record entry. -/
def rawToNode (rn : RawNode) : GraphNode :=
  let t := categoryToType rn.category
  { id := rn.name
    name := rn.name
    type := t
    val := some 1
    color := some (nodeColors t)
    metadata := some { description := rn.description, category := rn.category } }

/-- Accumulator of the getGraph ingestion loop: node map (keyed by name,
in insertion order), the link array, and the de-duplication set. -/
structure IngestAcc where
  nodes : List GraphNode
  links : List GraphLink
  linkSet : List String
  deriving DecidableEq, Repr

/-- Add one optional raw node to the node map if its name is new. -/
def addRawNode (acc : IngestAcc) (rn : Option RawNode) : IngestAcc :=
  match rn with
  | none => acc
  | some node =>
    if acc.nodes.any (fun x => x.id == node.name) then acc
    else { acc with nodes := acc.nodes ++ [rawToNode node] }

/-- One iteration of the getGraph forEach over result records: add both
endpoint nodes, then add the relationship as a link unless a link with
the same identity in either order was already added. -/
def ingestStep (acc0 : IngestAcc) (record : RawRecord) : IngestAcc :=
  let acc1 := addRawNode acc0 record.n
  let acc := addRawNode acc1 record.m
  match record.r, record.n, record.m with
  | some rel, some n, some m =>
    let lid := linkId n.name m.name
    let reverseLid := linkId m.name n.name
    if !(acc.linkSet.contains lid) && !(acc.linkSet.contains reverseLid) then
      { acc with
        links := acc.links ++ [{
          source := .idStr n.name
          target := .idStr m.name
          relationship :=
            match rel.relType with
            | some s => if s.isEmpty then "RELATED_TO" else s
            | none => "RELATED_TO"
          strength := some 1 }]
        linkSet := acc.linkSet ++ [lid] }
    else acc
  | _, _, _ => acc

/-- The record-processing part of graphApi.getGraph. -/
def processRecords (records : List RawRecord) : GraphData :=
  let acc := records.foldl ingestStep { nodes := [], links := [], linkSet := [] }
  { nodes := acc.nodes, links := acc.links }

/-- graphApi.getGraph as a function of the API outcome: on success the
records are ingested; on failure the internal catch logs and resolves
with an empty snapshot, so the promise never rejects. -/
def getGraphRun (api : Except String (List RawRecord)) : GraphData :=
  match api with
  | .ok records => processRecords records
  | .error _ => { nodes := [], links := [] }

/-- loadGraphData from page.tsx: set loading, run the try block (which
always succeeds because getGraphRun is total), the catch branch (only
reachable if the try block threw), then the finally clause. -/
def loadGraphData (api : Except String (List RawRecord)) (st : GraphState) : GraphState :=
  let st1 := setLoading true st
  let tryResult : Except String GraphState :=
    Except.ok (setGraphData (getGraphRun api) st1)
  let st2 :=
    match tryResult with
    | .ok s => s
    | .error _ => setError (some "failed to load graph data") st1
  setLoading false st2

/-- Two links connect the same unordered pair of endpoints when their
normalized endpoint pairs agree in either order. -/
def samePair (l1 l2 : GraphLink) : Prop :=
  (l1.source.norm = l2.source.norm ∧ l1.target.norm = l2.target.norm)
  ∨ (l1.source.norm = l2.target.norm ∧ l1.target.norm = l2.source.norm)

/-- Invariant of the getGraph ingestion loop: every emitted link has its
identity string registered in the de-duplication set, and no two emitted
links connect the same unordered endpoint pair. -/
def LinkInv (acc : IngestAcc) : Prop :=
  (∀ l ∈ acc.links, linkId l.source.norm l.target.norm ∈ acc.linkSet)
  ∧ acc.links.Pairwise (fun l1 l2 => ¬ samePair l1 l2)

/-! Sample data used by concrete instances and witnesses. -/

/-- Node 1 of the filter-composition example. -/
def aliceNode : GraphNode := { id := "1", name := "Alice", type := .person }

/-- Node 2 of the filter-composition example. -/
def fairNode : GraphNode := { id := "2", name := "Alicetown Fair", type := .event }

/-- A directed link from a to b with string endpoints. -/
def linkAB : GraphLink := { source := .idStr "a", target := .idStr "b", relationship := "knows" }

/-- A directed link from b to a with string endpoints. -/
def linkBA : GraphLink := { source := .idStr "b", target := .idStr "a", relationship := "knows" }

/-- A self-link on node a. -/
def linkAA : GraphLink := { source := .idStr "a", target := .idStr "a", relationship := "self" }

/-- A small snapshot with one node and one link. -/
def sampleSnapshot : GraphData := { nodes := [aliceNode], links := [linkAB] }

/-- A store state holding the a-to-b link. -/
def stateAB : GraphState := { initialState with graphData := { nodes := [], links := [linkAB] } }

/-- A store state holding the self-link on a. -/
def stateAA : GraphState := { initialState with graphData := { nodes := [], links := [linkAA] } }

/-- A store state holding the b-to-a link. -/
def stateBA : GraphState := { initialState with graphData := { nodes := [], links := [linkBA] } }

/-- A nonempty prior state used to examine the load-failure path, with a
distinctive error field value. -/
def priorState : GraphState :=
  { initialState with graphData := sampleSnapshot, error := some "old" }

/-- A node with id a. -/
def nodeA : GraphNode := { id := "a", name := "Node A", type := .person }

/-- An update object carrying only a new id b. -/
def updToB : NodeUpdates := { id := some "b" }

/-- An update object carrying only a new name. -/
def updName : NodeUpdates := { name := some "renamed" }

/-- A state whose only node has id a, with a link referencing a by id. -/
def stateNodeA : GraphState :=
  { initialState with graphData := { nodes := [nodeA], links := [linkAB] } }

/-! Helper lemmas about the JS-set model and the getNeighbors fold. -/

/-- Membership after a JS Set.add. -/
theorem mem_setAdd (xs : List String) (x B : String) :
    B ∈ setAdd xs x ↔ B = x ∨ B ∈ xs := by
  by_cases h : x ∈ xs
  · simp only [setAdd, if_pos h]
    constructor
    · exact Or.inr
    · rintro (rfl | hb)
      · exact h
      · exact hb
  · simp [setAdd, if_neg h, List.mem_append, or_comm]

/-- Node-set membership after one neighborStep iteration. -/
theorem mem_neighborStep_nodes (nodeId B : String) (acc : Neighbors) (l : GraphLink) :
    B ∈ (neighborStep nodeId acc l).nodes ↔
      B ∈ acc.nodes
      ∨ (l.source.norm = nodeId ∧ l.target.norm = B)
      ∨ (¬ l.source.norm = nodeId ∧ l.target.norm = nodeId ∧ l.source.norm = B) := by
  by_cases h1 : l.source.norm = nodeId
  · simp [neighborStep, h1, mem_setAdd]
    aesop
  · by_cases h2 : l.target.norm = nodeId
    · simp [neighborStep, h1, h2, mem_setAdd]
      aesop
    · simp [neighborStep, h1, h2]

/-- Link-set membership after one neighborStep iteration. -/
theorem mem_neighborStep_links (nodeId L : String) (acc : Neighbors) (l : GraphLink) :
    L ∈ (neighborStep nodeId acc l).links ↔
      L ∈ acc.links
      ∨ ((l.source.norm = nodeId ∨ l.target.norm = nodeId)
          ∧ L = linkId l.source.norm l.target.norm) := by
  by_cases h1 : l.source.norm = nodeId
  · simp [neighborStep, h1, mem_setAdd]
    aesop
  · by_cases h2 : l.target.norm = nodeId
    · simp [neighborStep, h1, h2, mem_setAdd]
      aesop
    · simp [neighborStep, h1, h2]

/-- Node-set membership of the whole getNeighbors fold. -/
theorem mem_neighborFold_nodes (nodeId B : String) (links : List GraphLink)
    (acc : Neighbors) :
    B ∈ (links.foldl (neighborStep nodeId) acc).nodes ↔
      B ∈ acc.nodes
      ∨ ∃ l ∈ links,
          (l.source.norm = nodeId ∧ l.target.norm = B)
          ∨ (¬ l.source.norm = nodeId ∧ l.target.norm = nodeId ∧ l.source.norm = B) := by
  induction links generalizing acc with
  | nil => simp
  | cons l ls ih =>
    rw [List.foldl_cons, ih, mem_neighborStep_nodes]
    simp only [List.mem_cons]
    constructor
    · rintro ((ha | hc) | ⟨l2, hl2, hp⟩)
      · exact Or.inl ha
      · exact Or.inr ⟨l, Or.inl rfl, hc⟩
      · exact Or.inr ⟨l2, Or.inr hl2, hp⟩
    · rintro (ha | ⟨l2, rfl | hl2, hp⟩)
      · exact Or.inl (Or.inl ha)
      · exact Or.inl (Or.inr hp)
      · exact Or.inr ⟨l2, hl2, hp⟩

/-- Link-set membership of the whole getNeighbors fold. -/
theorem mem_neighborFold_links (nodeId L : String) (links : List GraphLink)
    (acc : Neighbors) :
    L ∈ (links.foldl (neighborStep nodeId) acc).links ↔
      L ∈ acc.links
      ∨ ∃ l ∈ links,
          (l.source.norm = nodeId ∨ l.target.norm = nodeId)
          ∧ L = linkId l.source.norm l.target.norm := by
  induction links generalizing acc with
  | nil => simp
  | cons l ls ih =>
    rw [List.foldl_cons, ih, mem_neighborStep_links]
    simp only [List.mem_cons]
    constructor
    · rintro ((ha | hc) | ⟨l2, hl2, hp⟩)
      · exact Or.inl ha
      · exact Or.inr ⟨l, Or.inl rfl, hc⟩
      · exact Or.inr ⟨l2, Or.inr hl2, hp⟩
    · rintro (ha | ⟨l2, rfl | hl2, hp⟩)
      · exact Or.inl (Or.inl ha)
      · exact Or.inl (Or.inr hp)
      · exact Or.inr ⟨l2, hl2, hp⟩

/-! Claim theorems. -/

/-- C1: for every state and id, removeNode keeps, in order, exactly the
nodes whose id differs from the given id and exactly the links neither of
whose normalized endpoints equals the given id (equivalently, it removes
every link whose source id or target id equals the given id). -/
theorem removeNode_correct (nodeId : String) (st : GraphState) :
    (removeNode nodeId st).graphData.nodes
      = st.graphData.nodes.filter (fun n => decide (¬ n.id = nodeId))
    ∧ (removeNode nodeId st).graphData.links
      = st.graphData.links.filter (fun l =>
          decide (¬ (l.source.norm = nodeId ∨ l.target.norm = nodeId))) := by
  constructor
  · rw [show (removeNode nodeId st).graphData.nodes
        = st.graphData.nodes.filter (fun n => n.id != nodeId) from rfl]
    apply List.filter_congr
    intro n _
    by_cases h : n.id = nodeId <;> simp [h]
  · rw [show (removeNode nodeId st).graphData.links
        = st.graphData.links.filter (fun l =>
            l.source.norm != nodeId && l.target.norm != nodeId) from rfl]
    apply List.filter_congr
    intro l _
    by_cases h1 : l.source.norm = nodeId <;> by_cases h2 : l.target.norm = nodeId <;>
      simp [h1, h2]

/-- C2: getNeighbors is symmetric: whenever B is in the neighbor node set
of A, A is in the neighbor node set of B, whatever the direction and the
representation of the link between them. -/
theorem getNeighbors_symm (st : GraphState) (A B : String)
    (h : B ∈ (getNeighbors A st).nodes) : A ∈ (getNeighbors B st).nodes := by
  rw [getNeighbors, mem_neighborFold_nodes] at h
  rw [getNeighbors, mem_neighborFold_nodes]
  rcases h with h | ⟨l, hl, hcase⟩
  · exact absurd h (List.not_mem_nil B)
  · refine Or.inr ⟨l, hl, ?_⟩
    rcases hcase with ⟨hs, ht⟩ | ⟨hs, ht, hsb⟩
    · by_cases hab : l.source.norm = B
      · exact Or.inl ⟨hab, ht.trans (hs.symm.trans hab).symm⟩
      · exact Or.inr ⟨hab, ht, hs⟩
    · exact Or.inl ⟨hsb, ht⟩

/-- Witness for C2: with the single link from a to b, b is a neighbor of
a and, by the theorem, a is a neighbor of b. -/
theorem getNeighbors_symm_witness :
    "b" ∈ (getNeighbors "a" stateAB).nodes
    ∧ "a" ∈ (getNeighbors "b" stateAB).nodes :=
  ⟨by decide, getNeighbors_symm stateAB "a" "b" (by decide)⟩

/-- C7: a graph holding a self-link both of whose normalized endpoints
equal nodeId makes getNeighbors(nodeId) report nodeId as its own
neighbor and include the identity string nodeId-nodeId in its link set. -/
theorem getNeighbors_selfLink (st : GraphState) (nodeId : String)
    (h : ∃ l ∈ st.graphData.links,
        l.source.norm = nodeId ∧ l.target.norm = nodeId) :
    nodeId ∈ (getNeighbors nodeId st).nodes
    ∧ (nodeId ++ "-" ++ nodeId) ∈ (getNeighbors nodeId st).links := by
  obtain ⟨l, hl, hs, ht⟩ := h
  constructor
  · rw [getNeighbors, mem_neighborFold_nodes]
    exact Or.inr ⟨l, hl, Or.inl ⟨hs, ht⟩⟩
  · rw [getNeighbors, mem_neighborFold_links]
    refine Or.inr ⟨l, hl, Or.inl hs, ?_⟩
    rw [hs, ht]
    rfl

/-- Witness for C7 at the concrete state holding the self-link a-a. -/
theorem getNeighbors_selfLink_witness :
    "a" ∈ (getNeighbors "a" stateAA).nodes
    ∧ ("a" ++ "-" ++ "a") ∈ (getNeighbors "a" stateAA).links :=
  getNeighbors_selfLink stateAA "a" ⟨linkAA, by decide, rfl, rfl⟩

/-- C3: on nodes Alice (person) and Alicetown Fair (event) with no links,
setting the type filter to person and the search query to alice yields
exactly the Alice node, even though the second node's lowercased name
also contains the query as a substring (it is excluded by the type
filter, which runs first). -/
theorem filteredData_composition :
    (let st := setSearchQuery "alice" (setFilterByType (some .person)
        (setGraphData { nodes := [aliceNode, fairNode], links := [] } initialState))
     filteredData st.graphData st.filterByType st.searchQuery)
      = { nodes := [aliceNode], links := [] }
    ∧ strIncludes (strToLower fairNode.name) (strToLower "alice") = true := by
  decide

/-- C4: clearGraph empties the snapshot and clears the selection while
leaving hoveredNode, highlightedNodes, highlightedLinks, filterByType and
searchQuery untouched. -/
theorem clearGraph_frame (st : GraphState) :
    (clearGraph st).graphData = { nodes := [], links := [] }
    ∧ (clearGraph st).selectedNode = none
    ∧ (clearGraph st).hoveredNode = st.hoveredNode
    ∧ (clearGraph st).highlightedNodes = st.highlightedNodes
    ∧ (clearGraph st).highlightedLinks = st.highlightedLinks
    ∧ (clearGraph st).filterByType = st.filterByType
    ∧ (clearGraph st).searchQuery = st.searchQuery :=
  ⟨rfl, rfl, rfl, rfl, rfl, rfl, rfl⟩

/-- C6: setGraphData followed by the derived filtered view with the type
filter unset and an empty query returns the snapshot unchanged, nodes and
links in the same order. -/
theorem setGraphData_roundtrip (S : GraphData) (st : GraphState)
    (hf : st.filterByType = none) (hq : st.searchQuery = "") :
    filteredData (setGraphData S st).graphData (setGraphData S st).filterByType
      (setGraphData S st).searchQuery = S := by
  have h2 : (setGraphData S st).filterByType = st.filterByType := rfl
  have h3 : (setGraphData S st).searchQuery = st.searchQuery := rfl
  rw [show (setGraphData S st).graphData = S from rfl, h2, h3, hf, hq]
  exact rfl

/-- Witness for C6 at a concrete snapshot and the initial state. -/
theorem setGraphData_roundtrip_witness :
    filteredData (setGraphData sampleSnapshot initialState).graphData
      (setGraphData sampleSnapshot initialState).filterByType
      (setGraphData sampleSnapshot initialState).searchQuery = sampleSnapshot :=
  setGraphData_roundtrip sampleSnapshot initialState rfl rfl

/-- Mapping a function that fixes every element of a list is the
identity on that list. -/
theorem map_eq_self_of_id {α : Type} (f : α → α) (l : List α)
    (h : ∀ x ∈ l, f x = x) : l.map f = l := by
  induction l with
  | nil => rfl
  | cons a as ih =>
    rw [List.map_cons, h a (List.mem_cons_self a as),
      ih (fun x hx => h x (List.mem_cons_of_mem a hx))]

/-- updateNode is the identity when no node carries the target id. -/
theorem updateNode_no_match (nodeId : String) (u : NodeUpdates) (st : GraphState)
    (h : ∀ n ∈ st.graphData.nodes, n.id ≠ nodeId) :
    updateNode nodeId u st = st := by
  unfold updateNode
  rw [map_eq_self_of_id _ _ (fun n hn => by
    rw [if_neg (by simp [h n hn])])]

/-- C10: updateNode does not protect the identity field: when the unique
node with id A receives an update whose id field is B with B distinct
from A, that node now carries id B, the link sequence is untouched (so a
link that referenced A by id string dangles: no node carries id A any
more), and a subsequent updateNode at A is a silent no-op. -/
theorem updateNode_id_unprotected (st : GraphState) (A B : String) (u : NodeUpdates)
    (_huniq : st.graphData.nodes.countP (fun n => n.id == A) = 1)
    (hid : u.id = some B) (hne : B ≠ A) :
    (∀ n ∈ st.graphData.nodes, n.id = A →
        applyUpdates u n ∈ (updateNode A u st).graphData.nodes
        ∧ (applyUpdates u n).id = B)
    ∧ (updateNode A u st).graphData.links = st.graphData.links
    ∧ (∀ n ∈ (updateNode A u st).graphData.nodes, n.id ≠ A)
    ∧ (∀ u2, updateNode A u2 (updateNode A u st) = updateNode A u st) := by
  have hB : ∀ n : GraphNode, (applyUpdates u n).id = B := by
    intro n
    simp [applyUpdates, hid]
  have hno : ∀ n ∈ (updateNode A u st).graphData.nodes, n.id ≠ A := by
    intro n hn
    rcases List.mem_map.mp hn with ⟨m, hm, rfl⟩
    by_cases hmA : m.id = A
    · rw [if_pos (by simp [hmA]), hB m]
      exact hne
    · rw [if_neg (by simp [hmA])]
      exact hmA
  refine ⟨?_, rfl, hno, fun u2 => updateNode_no_match A u2 _ hno⟩
  intro n hn hnA
  refine ⟨?_, hB n⟩
  have hval : (fun m => if m.id == A then applyUpdates u m else m) n
      = applyUpdates u n := by
    show (if n.id == A then applyUpdates u n else n) = applyUpdates u n
    rw [if_pos (by simp [hnA])]
  exact hval ▸ List.mem_map_of_mem _ hn

/-- Witness for C10 on a one-node state: the update changes the id to b,
links are untouched, and a further update at a is a no-op. -/
theorem updateNode_id_unprotected_witness :
    (applyUpdates updToB nodeA).id = "b"
    ∧ (updateNode "a" updToB stateNodeA).graphData.links = stateNodeA.graphData.links
    ∧ updateNode "a" updName (updateNode "a" updToB stateNodeA)
        = updateNode "a" updToB stateNodeA :=
  let T := updateNode_id_unprotected stateNodeA "a" "b" updToB (by decide) rfl (by decide)
  ⟨(T.1 nodeA (by decide) rfl).2, T.2.1, T.2.2.2 updName⟩

/-- Counterexample to C8 as stated: for the ordered pair (a, a) and a
self-link on a, the link whose normalized pair equals (targetId,
sourceId) = (a, a) is removed, so the reverse-pair link is not always
retained. -/
theorem removeLink_reverse_counterexample :
    linkAA.source.norm = "a"
    ∧ linkAA.target.norm = "a"
    ∧ linkAA ∈ stateAA.graphData.links
    ∧ linkAA ∉ (removeLink "a" "a" stateAA).graphData.links := by
  decide

/-- C8 (amended): removeLink removes exactly the links whose normalized
ordered endpoint pair equals the given pair and, whenever sourceId and
targetId differ, retains every link whose normalized pair is the reverse
(targetId, sourceId). -/
theorem removeLink_spec (sourceId targetId : String) (st : GraphState) :
    (removeLink sourceId targetId st).graphData.links
      = st.graphData.links.filter (fun l =>
          decide (¬ (l.source.norm = sourceId ∧ l.target.norm = targetId)))
    ∧ (sourceId ≠ targetId →
        ∀ l ∈ st.graphData.links, l.source.norm = targetId →
          l.target.norm = sourceId →
          l ∈ (removeLink sourceId targetId st).graphData.links) := by
  have hfilter : (removeLink sourceId targetId st).graphData.links
      = st.graphData.links.filter (fun l =>
          !(l.source.norm == sourceId && l.target.norm == targetId)) := rfl
  constructor
  · rw [hfilter]
    apply List.filter_congr
    intro l _
    by_cases h1 : l.source.norm = sourceId <;> by_cases h2 : l.target.norm = targetId <;>
      simp [h1, h2]
  · intro hne l hl hs ht
    rw [hfilter, List.mem_filter]
    refine ⟨hl, ?_⟩
    rw [hs, ht]
    simp [Ne.symm hne]

/-- Witness for C8 at the pair (a, b) and the reverse link b-a, which is
retained. -/
theorem removeLink_spec_witness :
    linkBA ∈ (removeLink "a" "b" stateBA).graphData.links :=
  (removeLink_spec "a" "b" stateBA).2 (by decide) linkBA (by decide) rfl rfl

/-- Counterexample to C5 as stated: on a failing API outcome the load
routine replaces a nonempty prior snapshot with the empty one (getGraph
swallows the failure and resolves with an empty graph) and records no
message into the error field. -/
theorem loadFailure_counterexample :
    (loadGraphData (Except.error "network error") priorState).graphData
      = { nodes := [], links := [] }
    ∧ priorState.graphData ≠ { nodes := [], links := [] }
    ∧ (loadGraphData (Except.error "network error") priorState).error
      = priorState.error := by
  decide

/-- C5 (amended): isLoading is cleared by the finally clause on every
path, but on a failing API outcome the failure is caught inside
graphApi.getGraph, which resolves with the empty snapshot, so the call
site catch never runs: the graph is set to the empty snapshot (not left
in its prior state) and the error field is left unchanged (no message is
recorded). -/
theorem loadGraphData_failure (api : Except String (List RawRecord)) (st : GraphState) :
    (loadGraphData api st).isLoading = false
    ∧ (∀ e, api = Except.error e →
        (loadGraphData api st).graphData = { nodes := [], links := [] }
        ∧ (loadGraphData api st).error = st.error) := by
  constructor
  · rfl
  · rintro e rfl
    exact ⟨rfl, rfl⟩

/-- Witness for C5 (amended) at a concrete failing outcome and a
nonempty prior state. -/
theorem loadGraphData_failure_witness :
    (loadGraphData (Except.error "boom") priorState).isLoading = false
    ∧ (loadGraphData (Except.error "boom") priorState).graphData
      = { nodes := [], links := [] }
    ∧ (loadGraphData (Except.error "boom") priorState).error = priorState.error :=
  ⟨(loadGraphData_failure (Except.error "boom") priorState).1,
    ((loadGraphData_failure (Except.error "boom") priorState).2 "boom" rfl).1,
    ((loadGraphData_failure (Except.error "boom") priorState).2 "boom" rfl).2⟩

/-- addRawNode only touches the node map. -/
theorem addRawNode_links (acc : IngestAcc) (rn : Option RawNode) :
    (addRawNode acc rn).links = acc.links
    ∧ (addRawNode acc rn).linkSet = acc.linkSet := by
  cases rn with
  | none => exact ⟨rfl, rfl⟩
  | some node =>
    simp only [addRawNode]
    split <;> exact ⟨rfl, rfl⟩

/-- The link-pushing phase of one ingestion iteration preserves the
de-duplication invariant. -/
theorem linkInv_pushStep (acc : IngestAcc) (n m : RawNode) (rel : RawRel)
    (h : LinkInv acc) :
    LinkInv (
      if !(acc.linkSet.contains (linkId n.name m.name))
          && !(acc.linkSet.contains (linkId m.name n.name)) then
        { acc with
          links := acc.links ++ [{
            source := .idStr n.name
            target := .idStr m.name
            relationship :=
              match rel.relType with
              | some s => if s.isEmpty then "RELATED_TO" else s
              | none => "RELATED_TO"
            strength := some 1 }]
          linkSet := acc.linkSet ++ [linkId n.name m.name] }
      else acc) := by
  by_cases hc : (!(acc.linkSet.contains (linkId n.name m.name))
      && !(acc.linkSet.contains (linkId m.name n.name))) = true
  · rw [if_pos hc]
    simp only [Bool.and_eq_true, Bool.not_eq_true'] at hc
    have hc1 : linkId n.name m.name ∉ acc.linkSet := by
      have hx := hc.1
      simp at hx
      exact hx
    have hc2 : linkId m.name n.name ∉ acc.linkSet := by
      have hx := hc.2
      simp at hx
      exact hx
    constructor
    · intro l hl
      rcases List.mem_append.mp hl with hl | hl
      · exact List.mem_append_left _ (h.1 l hl)
      · rcases List.mem_singleton.mp hl with rfl
        apply List.mem_append_right
        simp [LinkEnd.norm]
    · rw [List.pairwise_append]
      refine ⟨h.2, by simp, ?_⟩
      intro l1 hl1 l2 hl2
      rcases List.mem_singleton.mp hl2 with rfl
      intro hsp
      have hid1 : linkId l1.source.norm l1.target.norm ∈ acc.linkSet := h.1 l1 hl1
      rcases hsp with ⟨hs, ht⟩ | ⟨hs, ht⟩
      · rw [hs, ht] at hid1
        exact hc1 hid1
      · rw [hs, ht] at hid1
        exact hc2 hid1
  · rw [if_neg hc]
    exact h

/-- One full ingestion iteration preserves the de-duplication
invariant. -/
theorem linkInv_ingestStep (acc0 : IngestAcc) (record : RawRecord)
    (h : LinkInv acc0) : LinkInv (ingestStep acc0 record) := by
  obtain ⟨rn, rr, rm⟩ := record
  have hinv : LinkInv (addRawNode (addRawNode acc0 rn) rm) := by
    obtain ⟨ha1, hb1⟩ := addRawNode_links acc0 rn
    obtain ⟨ha2, hb2⟩ := addRawNode_links (addRawNode acc0 rn) rm
    unfold LinkInv at h ⊢
    rw [ha2, ha1, hb2, hb1]
    exact h
  rcases rr with _ | rel
  · exact hinv
  rcases rn with _ | n
  · exact hinv
  rcases rm with _ | m
  · exact hinv
  · exact linkInv_pushStep (addRawNode (addRawNode acc0 (some n)) (some m)) n m rel hinv

/-- The ingestion fold preserves the de-duplication invariant. -/
theorem linkInv_foldl (records : List RawRecord) (acc : IngestAcc)
    (h : LinkInv acc) : LinkInv (records.foldl ingestStep acc) := by
  induction records generalizing acc with
  | nil => exact h
  | cons r rs ih => exact ih _ (linkInv_ingestStep _ r h)

/-- C9: the gateway ingestion checks both link-identity orders, so for
every list of response records getGraph emits at most one link per
unordered pair of endpoint names: no two emitted links connect the same
unordered pair. -/
theorem getGraph_dedup (records : List RawRecord) :
    (processRecords records).links.Pairwise (fun l1 l2 => ¬ samePair l1 l2) := by
  have h0 : LinkInv { nodes := [], links := [], linkSet := [] } :=
    ⟨fun l hl => absurd hl (List.not_mem_nil l), List.Pairwise.nil⟩
  exact (linkInv_foldl records _ h0).2

end Graphaura
